import Mathlib

/-!
Shallow embedding of the shai-hulud-killer IOC scanner core
(src/patterns.rs, src/scanner.rs) and proofs about it.

Rust machine types: usize sizes are modelled as Nat; Rust strings are
modelled as Lean String / List Char, with Rust's byte-oriented
operations (str::len, byte slicing) expressed through Char.utf8Size.
Fallible operations (file reads, JSON parsing) are modelled by Option /
Bool inputs; a Rust panic (unwinding) is modelled by Except RustPanic.
-/

namespace ShaiHulud

/-- Rust panic (process abort / unwind), as opposed to a returned Err. -/
inductive RustPanic
  | panicked
deriving DecidableEq, Repr

/-- Severity enum from patterns.rs lines 149-155. -/
inductive Severity
  | Critical
  | High
  | Medium
  | Low
deriving DecidableEq, Repr

/-- Severity.as_str from patterns.rs lines 158-165. -/
def Severity.as_str : Severity → String
  | .Critical => "CRITICAL"
  | .High => "HIGH"
  | .Medium => "MEDIUM"
  | .Low => "LOW"

/-- FindingType enum from scanner.rs lines 55-62. -/
inductive FindingType
  | MaliciousFile
  | MaliciousHash
  | SuspiciousPattern
  | DangerousHook
  | CompromisedPackage
deriving DecidableEq, Repr

/-- Finding struct from scanner.rs lines 43-53. -/
structure Finding where
  path : String
  finding_type : FindingType
  severity : Severity
  description : String
  line : Option Nat
  context : Option String
deriving DecidableEq, Repr

/-- Summary struct from scanner.rs lines 34-41. -/
structure Summary where
  total : Nat
  critical : Nat
  high : Nat
  medium : Nat
  low : Nat
deriving DecidableEq, Repr

/-- ScanResults struct from scanner.rs lines 26-32. -/
structure ScanResults where
  findings : List Finding
  summary : Summary
  scanned_files : Nat
  scan_path : String
deriving DecidableEq, Repr

/-- ScanConfig from scanner.rs lines 13-16. -/
structure ScanConfig where
  include_node_modules : Bool
deriving DecidableEq, Repr

/-- MALICIOUS_FILES from patterns.rs line 6. -/
def MALICIOUS_FILES : List String := ["setup_bun.js", "bun_environment.js"]

/-- MALICIOUS_HASHES from patterns.rs lines 9-14. -/
def MALICIOUS_HASHES : List String :=
  [ "62ee164b9b306250c1172583f138c9614139264f889fa99614903c12755468d0"
  , "f099c5d9ec417d4445a0328ac0ada9cde79fc37410914103ae9c609cbc0ee068"
  , "cbb9bc5a8496243e02f3cc080efbe3e4a1430ba0671f2e43a202bf45b05479cd"
  , "a3894003ad1d293ba96d77881ccd2071446dc3f65f434669b49b3da92421901a" ]

/-- SKIP_DIRS from patterns.rs line 17. -/
def SKIP_DIRS : List String :=
  [".git", ".svn", ".hg", "vendor", "dist", "build", "__pycache__"]

/-- DANGEROUS_HOOKS from patterns.rs line 20. -/
def DANGEROUS_HOOKS : List String :=
  ["preinstall", "postinstall", "preuninstall", "install"]

/-- SCANNABLE_EXTENSIONS from patterns.rs line 23. -/
def SCANNABLE_EXTENSIONS : List String :=
  ["js", "ts", "mjs", "cjs", "json", "yaml", "yml", "sh"]

/-- ASCII lower-casing; the regex literals in patterns.rs are all ASCII,
so case-insensitive (?i) matching only needs ASCII folding. -/
def asciiLower (c : Char) : Char :=
  if 'A' ≤ c ∧ c ≤ 'Z' then Char.ofNat (c.toNat + 32) else c

/-- Whitespace class of the regex escape \s (also used to model
str::trim, which the scanner only applies to source lines). -/
def isWsChar (c : Char) : Bool :=
  c = ' ' || c = '\t' || c = '\n' || c = '\x0d' || c = '\x0b' || c = '\x0c'

/-- Abstract syntax for the (simple) regexes appearing in patterns.rs:
literal runs, case-insensitive literal runs (scope of (?i)), the
any-run of ".*" (lines never contain a newline, so "." is unguarded),
optional or mandatory whitespace runs for \s* and \s+, and an
alternation of literals for groups like (sh|bash|node) and for the
optional bracket "\[?". -/
inductive Pat
  | lit (s : List Char)
  | ilit (s : List Char)
  | dotStar
  | ws0
  | ws1
  | alts (ss : List (List Char))
deriving DecidableEq, Repr

/-- Does the pattern sequence match some prefix of s? Backtracking
interpretation of the Pat sequence, the standard regex semantics for
the fragment used by the rule tables. -/
def patPref : List Pat → List Char → Bool
  | [], _ => true
  | .lit l :: ps, s => l.isPrefixOf s && patPref ps (s.drop l.length)
  | .ilit l :: ps, s =>
      (l.map asciiLower).isPrefixOf (s.map asciiLower) && patPref ps (s.drop l.length)
  | .dotStar :: ps, s => (List.range (s.length + 1)).any fun i => patPref ps (s.drop i)
  | .ws0 :: ps, s =>
      (List.range (s.length + 1)).any fun i =>
        (s.take i).all isWsChar && patPref ps (s.drop i)
  | .ws1 :: ps, s =>
      (List.range (s.length + 1)).any fun i =>
        decide (1 ≤ i) && (s.take i).all isWsChar && patPref ps (s.drop i)
  | .alts ls :: ps, s =>
      ls.any fun l => l.isPrefixOf s && patPref ps (s.drop l.length)

/-- Regex::is_match - the pattern matches starting at some position. -/
def isMatch (p : List Pat) (s : List Char) : Bool :=
  (List.range (s.length + 1)).any fun i => patPref p (s.drop i)

/-- PatternRule struct from patterns.rs lines 178-182 (the compiled
regex is replaced by its Pat encoding). -/
structure PatternRule where
  pat : List Pat
  description : String
  severity : Severity

/-- HookRule struct from patterns.rs lines 194-197. -/
structure HookRule where
  pat : List Pat
  description : String

/-- SUSPICIOUS_PATTERNS from patterns.rs lines 26-134. Each rule's
regex source is given in the comment on its line. -/
def SUSPICIOUS_PATTERNS : List PatternRule :=
  [ ⟨[.ilit "SHA1HULUD".toList], "Shai-Hulud runner identifier", .Critical⟩
  , ⟨[.ilit "Sha1-Hulud:".toList, .ws0, .ilit "The".toList, .ws0,
      .ilit "Second".toList, .ws0, .ilit "Coming".toList],
      "Shai-Hulud 2.0 marker string", .Critical⟩
  , ⟨[.lit "setup_bun.js".toList], "Malicious setup file reference", .Critical⟩
  , ⟨[.lit "bun_environment.js".toList], "Malicious environment file reference", .Critical⟩
  , ⟨[.alts ["list_AWS_secrets".toList, "list_GCP_secrets".toList, "list_Azure_secrets".toList]],
      "Cloud secrets enumeration function", .Critical⟩
  , ⟨[.alts ["githubGetPackagesByMaintainer".toList, "githubUpdatePackage".toList]],
      "Malicious GitHub package functions", .Critical⟩
  , ⟨[.alts ["github_save_file".toList, "githubListRepos".toList]],
      "Suspicious GitHub automation", .High⟩
  , ⟨[.lit "gh".toList, .ws1, .lit "auth".toList, .ws1, .lit "token".toList],
      "GitHub CLI token extraction", .High⟩
  , ⟨[.lit ".npmrc".toList], "NPM config file access", .Medium⟩
  , ⟨[.alts ["NPM_TOKEN".toList, "npm_token".toList]], "NPM token reference", .High⟩
  , ⟨[.alts ["GITHUB_TOKEN".toList, "GH_TOKEN".toList]],
      "GitHub token environment variable", .Medium⟩
  , ⟨[.ilit "trufflehog".toList], "Secret scanning tool reference", .High⟩
  , ⟨[.lit "actions/runner/config".toList], "GitHub Actions runner config access", .High⟩
  , ⟨[.alts ["discussion.yaml".toList, "discussion.yml".toList]],
      "Suspicious workflow filename", .High⟩
  , ⟨[.lit "runs-on:".toList, .ws0, .alts ["[".toList, [] ], .ws0, .lit "self-hosted".toList],
      "Self-hosted runner configuration", .Medium⟩
  , ⟨[.lit "curl".toList, .dotStar, .lit "|".toList, .ws0,
      .alts ["sh".toList, "bash".toList, "node".toList]],
      "Remote code execution via curl pipe", .High⟩
  , ⟨[.lit "wget".toList, .dotStar, .lit "|".toList, .ws0,
      .alts ["sh".toList, "bash".toList, "node".toList]],
      "Remote code execution via wget pipe", .High⟩
  , ⟨[.lit "~/.aws/credentials".toList], "AWS credentials file access", .High⟩
  , ⟨[.lit "application_default_credentials.json".toList], "GCP credentials file access", .High⟩
  , ⟨[.lit "azureProfile.json".toList], "Azure profile access", .High⟩
  , ⟨[.lit "npm".toList, .ws1, .lit "publish".toList, .ws1,
      .lit "--access".toList, .ws1, .lit "public".toList],
      "Public npm publish command", .Medium⟩ ]

/-- HOOK_PATTERNS from patterns.rs lines 137-147. -/
def HOOK_PATTERNS : List HookRule :=
  [ ⟨[.lit "setup_bun".toList], "Malicious setup script"⟩
  , ⟨[.lit "bun_environment".toList], "Malicious environment script"⟩
  , ⟨[.lit "node".toList, .ws1, .lit "-e".toList], "Inline node code execution"⟩
  , ⟨[.lit "curl".toList, .dotStar, .lit "|".toList], "Piped curl command"⟩
  , ⟨[.lit "wget".toList, .dotStar, .lit "|".toList], "Piped wget command"⟩
  , ⟨[.lit "eval(".toList], "Eval code execution"⟩
  , ⟨[.lit "Function(".toList], "Dynamic function creation"⟩ ]

/-- Byte length of a Rust string (str::len counts UTF-8 bytes). -/
def byteLen (s : List Char) : Nat := (s.map Char.utf8Size).sum

/-- The prefix of s occupying exactly n UTF-8 bytes, when n is a char
boundary of s; none when n falls inside a multi-byte character (or is
past the end), the situations where Rust byte slicing panics. -/
def byteTake : List Char → Nat → Option (List Char)
  | _, 0 => some []
  | [], _ + 1 => none
  | c :: cs, n + 1 =>
      if c.utf8Size ≤ n + 1 then (byteTake cs (n + 1 - c.utf8Size)).map (fun r => c :: r)
      else none

/-- truncate_string from scanner.rs lines 317-323. s.len() is the byte
length and the slice s[..max_len] panics when max_len is not a char
boundary, hence the Except result. -/
def truncate_string (s : List Char) (max_len : Nat) : Except RustPanic (List Char) :=
  if byteLen s ≤ max_len then .ok s
  else
    match byteTake s max_len with
    | some p => .ok (p ++ "...".toList)
    | none => .error .panicked

/-- str::trim - strip leading and trailing whitespace. -/
def rustTrim (s : List Char) : List Char :=
  ((s.dropWhile isWsChar).reverse.dropWhile isWsChar).reverse

/-- check_filename from scanner.rs lines 167-182. -/
def check_filename (path fname : String) : List Finding :=
  if MALICIOUS_FILES.contains fname then
    [⟨path, .MaliciousFile, .Critical, "Known malicious file: " ++ fname, none, none⟩]
  else []

/-- check_file_hash from scanner.rs lines 184-207. readOk models
whether fs::read succeeded; sha256hex is the hex digest of the file's
content (the SHA-256 computation itself is external to this model). -/
def check_file_hash (path : String) (readOk : Bool) (sha256hex : String) : List Finding :=
  if MALICIOUS_HASHES.isEmpty then []
  else if !readOk then []
  else if MALICIOUS_HASHES.contains sha256hex then
    [⟨path, .MaliciousHash, .Critical,
      "File matches known malicious hash: " ++ String.mk (sha256hex.toList.take 16) ++ "...",
      none, none⟩]
  else []

/-- Findings of one source line (the inner rule loop of
check_file_content, scanner.rs lines 233-244). The source calls
truncate_string once per matching rule, always on the same trimmed
line, so the call is factored out: it panics exactly when at least one
rule matches and the trimmed line has a bad byte-100 boundary. -/
def lineFindings (path : String) (line_num : Nat) (line : String) :
    Except RustPanic (List Finding) :=
  let ms := SUSPICIOUS_PATTERNS.filter fun r => isMatch r.pat line.toList
  if ms.isEmpty then .ok []
  else
    match truncate_string (rustTrim line.toList) 100 with
    | .ok c =>
        .ok (ms.map fun r =>
          ⟨path, .SuspiciousPattern, r.severity, r.description,
            some (line_num + 1), some (String.mk c)⟩)
    | .error e => .error e

/-- The line loop of check_file_content (scanner.rs lines 230-245),
with the running 0-based enumeration index made explicit. Lines whose
UTF-8 decoding fails are skipped by the source; the model's line list
holds the successfully decoded lines. -/
def scanLines (path : String) (line_num : Nat) : List String → Except RustPanic (List Finding)
  | [] => .ok []
  | l :: rest =>
      match lineFindings path line_num l with
      | .error e => .error e
      | .ok fs =>
          match scanLines path (line_num + 1) rest with
          | .error e => .error e
          | .ok gs => .ok (fs ++ gs)

/-- check_file_content from scanner.rs lines 209-248. ext is the
file's extension, openOk whether File::open succeeded, metaOk whether
the file.metadata() call succeeded, size the file's byte size (what a
successful metadata call reports). The source's size gate sits inside
an if-let on the metadata result (lines 221-225): when the metadata
call fails, the gate is skipped and the file is scanned regardless of
its size. -/
def check_file_content (path ext : String) (openOk metaOk : Bool) (size : Nat)
    (lines : List String) : Except RustPanic (List Finding) :=
  if SCANNABLE_EXTENSIONS.contains ext then
    if openOk then
      if metaOk then
        if 1000000 < size then .ok []
        else scanLines path 0 lines
      else scanLines path 0 lines
    else .ok []
  else .ok []

/-- Path::extension().and_then(to_str).unwrap_or("") - the substring
after the last dot of the file name, empty when there is no dot or the
only dot is the leading one (hidden files have no extension). -/
def extOf (fname : String) : String :=
  let cs := fname.toList
  let rev := cs.reverse
  if rev.contains '.' then
    let afterRev := rev.takeWhile (fun c => c ≠ '.')
    if cs.length - afterRev.length - 1 = 0 then ""
    else String.mk afterRev.reverse
  else ""

/-- Minimal JSON value model: the scanner only distinguishes strings,
objects and everything else (serde_json::Value via as_str/as_object). -/
inductive Json
  | str (s : String)
  | obj (fields : List (String × Json))
  | other

/-- Value::as_str. -/
def asStr : Json → Option String
  | .str s => some s
  | _ => none

/-- Map lookup on an object's field list (serde_json object get). -/
def jLookup : List (String × Json) → String → Option Json
  | [], _ => none
  | (k, v) :: rest, key => if k = key then some v else jLookup rest key

/-- Value::get on an object. -/
def jGet (j : Json) (k : String) : Option Json :=
  match j with
  | .obj fs => jLookup fs k
  | _ => none

/-- The compromised-package table type: package name to the list of
infected version strings. -/
def PkgTable := List (String × List String)

/-- Modelled from the spec: the COMPROMISED_PACKAGES table (the module
defining it is not part of the sources at hand). Section 3 of the spec:
a mapping from package name to an ordered set of exact version strings
known to be infected. The table contents are a parameter throughout. -/
def lookupPkg : PkgTable → String → Option (List String)
  | [], _ => none
  | (p, vs) :: rest, pkg => if p = pkg then some vs else lookupPkg rest pkg

/-- Modelled from the spec: is_package_compromised - some infected
version list when the package name is in the table, none otherwise. -/
def is_package_compromised (tbl : PkgTable) (pkg : String) : Option (List String) :=
  lookupPkg tbl pkg

/-- Modelled from the spec: is_version_compromised - some infected
version list when the package is in the table and the declared version
string exactly equals one of its infected versions (exact string
equality, no semver resolution - spec sections 3 and 9). -/
def is_version_compromised (tbl : PkgTable) (pkg version : String) : Option (List String) :=
  match lookupPkg tbl pkg with
  | some vs => if vs.contains version then some vs else none
  | none => none

/-- One (package, versionSpec) dependency entry of a package.json
section, scanner.rs lines 286-310. -/
def checkDepEntry (tbl : PkgTable) (path pkg : String) (v : Json) : List Finding :=
  let version := (asStr v).getD "unknown"
  match is_version_compromised tbl pkg version with
  | some ivs =>
      [⟨path, .CompromisedPackage, .Critical,
        s!"INFECTED package: {pkg} @ {version} (Shai-Hulud 2.0)", none,
        some ("Infected versions: " ++ String.intercalate ", " ivs)⟩]
  | none =>
      match is_package_compromised tbl pkg with
      | some ivs =>
          [⟨path, .CompromisedPackage, .Medium,
            s!"Package {pkg} was targeted (your version {version} may be safe)", none,
            some ("Infected versions: " ++ String.intercalate ", " ivs)⟩]
      | none => []

/-- The four dependency sections, scanner.rs line 282. -/
def dep_sections : List String :=
  ["dependencies", "devDependencies", "peerDependencies", "optionalDependencies"]

/-- The compromised-dependency part of check_package_json, scanner.rs
lines 282-312. -/
def checkPackageDeps (tbl : PkgTable) (path : String) (json : Json) : List Finding :=
  dep_sections.flatMap fun sec =>
    match jGet json sec with
    | some (.obj deps) => deps.flatMap fun pv => checkDepEntry tbl path pv.1 pv.2
    | _ => []

/-- Hook findings for one script string (inner rule loop of
check_package_json, scanner.rs lines 265-276). As with lineFindings,
truncate_string is called once per matching rule on the same script
text, so it is factored out. -/
def hookFindingsFor (path hook script : String) : Except RustPanic (List Finding) :=
  let ms := HOOK_PATTERNS.filter fun r => isMatch r.pat script.toList
  if ms.isEmpty then .ok []
  else
    match truncate_string script.toList 100 with
    | .ok c =>
        .ok (ms.map fun r =>
          ⟨path, .DangerousHook, .Critical, r.description ++ " in '" ++ hook ++ "' hook",
            none, some (String.mk c)⟩)
    | .error e => .error e

/-- The hook loop of check_package_json, scanner.rs lines 262-279. -/
def hooksScan (path : String) (scripts : List (String × Json)) :
    List String → Except RustPanic (List Finding)
  | [] => .ok []
  | hook :: rest =>
      match (jLookup scripts hook).bind asStr with
      | some script =>
          match hookFindingsFor path hook script with
          | .error e => .error e
          | .ok fs =>
              match hooksScan path scripts rest with
              | .error e => .error e
              | .ok gs => .ok (fs ++ gs)
      | none => hooksScan path scripts rest

/-- check_package_json from scanner.rs lines 250-315. readOk models
fs::read_to_string succeeding, json the parse result (none on parse
failure). -/
def check_package_json (tbl : PkgTable) (path : String) (readOk : Bool)
    (json : Option Json) : Except RustPanic (List Finding) :=
  if !readOk then .ok []
  else
    match json with
    | none => .ok []
    | some j =>
        let hooks :=
          match jGet j "scripts" with
          | some (.obj scripts) => hooksScan path scripts DANGEROUS_HOOKS
          | _ => .ok []
        match hooks with
        | .error e => .error e
        | .ok hs => .ok (hs ++ checkPackageDeps tbl path j)

/-- str::strip_prefix for the node_modules/ path prefix,
scanner.rs lines 340-342. -/
def stripNodeModules (s : String) : Option String :=
  let pre := "node_modules/".toList
  if pre.isPrefixOf s.toList then some (String.mk (s.toList.drop pre.length)) else none

/-- One entry of the npm v7+ packages map, scanner.rs lines 338-359. -/
def checkLockPkgEntry (tbl : PkgTable) (path pkg_path : String) (pkg_info : Json) :
    List Finding :=
  let pkg_name := (stripNodeModules pkg_path).getD pkg_path
  let version := ((jGet pkg_info "version").bind asStr).getD "unknown"
  match is_version_compromised tbl pkg_name version with
  | some ivs =>
      [⟨path, .CompromisedPackage, .Critical,
        s!"INFECTED in lockfile: {pkg_name} @ {version}", none,
        some ("Infected versions: " ++ String.intercalate ", " ivs)⟩]
  | none => []

mutual

/-- check_npm_v6_deps from scanner.rs lines 396-423: the entry loop. -/
def v6Deps (tbl : PkgTable) (path : String) : List (String × Json) → List Finding
  | [] => []
  | (pkg_name, pkg_info) :: rest =>
      v6One tbl path pkg_name pkg_info ++ v6Deps tbl path rest
termination_by l => sizeOf l
decreasing_by
  all_goals simp_arith

/-- One npm v6 dependency entry: the exact-version test plus the
recursion into a nested dependencies object. -/
def v6One (tbl : PkgTable) (path pkg_name : String) (info : Json) : List Finding :=
  (let version := ((jGet info "version").bind asStr).getD "unknown"
   match is_version_compromised tbl pkg_name version with
   | some ivs =>
       [⟨path, .CompromisedPackage, .Critical,
         s!"INFECTED in lockfile: {pkg_name} @ {version}", none,
         some ("Infected versions: " ++ String.intercalate ", " ivs)⟩]
   | none => []) ++
  (match info with
   | .obj fields => v6Nested tbl path fields
   | _ => [])
termination_by sizeOf info
decreasing_by
  simp_arith

/-- Find the nested "dependencies" object of a v6 entry and recurse. -/
def v6Nested (tbl : PkgTable) (path : String) : List (String × Json) → List Finding
  | [] => []
  | (k, v) :: rest =>
      if k = "dependencies" then
        match v with
        | .obj deps => v6Deps tbl path deps
        | _ => []
      else v6Nested tbl path rest
termination_by l => sizeOf l
decreasing_by
  all_goals simp_arith

end

/-- str::contains on strings viewed as char lists: the needle occurs
as a contiguous segment of the haystack. -/
def containsSeg (needle : List Char) : List Char → Bool
  | [] => needle.isEmpty
  | c :: rest => needle.isPrefixOf (c :: rest) || containsSeg needle rest

/-- The yarn.lock / pnpm-lock.yaml textual branch of check_lockfile,
scanner.rs lines 368-390: for every (package, infected version) pair
test two literal patterns against the raw file text; the inner break
makes each pair contribute at most one finding. -/
def checkTextualLock (tbl : PkgTable) (path : String) (content : String) : List Finding :=
  tbl.flatMap fun pv =>
    pv.2.filterMap fun version =>
      let p1 := pv.1 ++ "@" ++ version
      let p2 := "\"" ++ pv.1 ++ "\":\n  version: \"" ++ version ++ "\""
      if containsSeg p1.toList content.toList || containsSeg p2.toList content.toList then
        some ⟨path, .CompromisedPackage, .Critical,
          s!"INFECTED in lockfile: {pv.1} @ {version}", none,
          some ("Infected versions: " ++ String.intercalate ", " pv.2)⟩
      else none

/-- check_lockfile from scanner.rs lines 325-394. -/
def check_lockfile (tbl : PkgTable) (path fname : String) (readOk : Bool)
    (content : String) (json : Option Json) : List Finding :=
  if !readOk then []
  else if fname = "package-lock.json" then
    match json with
    | some j =>
        (match jGet j "packages" with
         | some (.obj packages) =>
             packages.flatMap fun pv => checkLockPkgEntry tbl path pv.1 pv.2
         | _ => []) ++
        (match jGet j "dependencies" with
         | some (.obj deps) => v6Deps tbl path deps
         | _ => [])
    | none => []
  else checkTextualLock tbl path content

/-- Observable data of one file: its size in bytes, whether the
whole-content reads, the line-oriented open and the metadata call
succeed, the hex SHA-256 digest of its content, its decoded lines,
raw text, and JSON parse. -/
structure FileData where
  size : Nat
  readOk : Bool
  openOk : Bool
  metaOk : Bool
  sha256 : String
  lines : List String
  raw : String
  json : Option Json

/-- One enumerated file: its display path, base file name, and data. -/
structure Entry where
  path : String
  fname : String
  data : FileData

/-- The per-file analysis closure of scan_directory_with_progress,
scanner.rs lines 86-115 (minus the progress call, which the trace
model below covers): the ordered concatenation of all checks. -/
def analyze_file (tbl : PkgTable) (e : Entry) : Except RustPanic (List Finding) :=
  match check_file_content e.path (extOf e.fname) e.data.openOk e.data.metaOk e.data.size
      e.data.lines with
  | .error er => .error er
  | .ok content_fs =>
      let manifest :=
        if e.fname = "package.json" then
          check_package_json tbl e.path e.data.readOk e.data.json
        else .ok []
      match manifest with
      | .error er => .error er
      | .ok manifest_fs =>
          let lock_fs :=
            if e.fname = "package-lock.json" ∨ e.fname = "yarn.lock" ∨
                e.fname = "pnpm-lock.yaml" then
              check_lockfile tbl e.path e.fname e.data.readOk e.data.raw e.data.json
            else []
          .ok (check_filename e.path e.fname ++
               check_file_hash e.path e.data.readOk e.data.sha256 ++
               content_fs ++ manifest_fs ++ lock_fs)

/-- The parallel fan-out's aggregation (scanner.rs lines 84-117): a
fold of per-file findings in processing order; a Rust panic in any
unit of work unwinds the whole scan. -/
def collectFindings (tbl : PkgTable) : List Entry → Except RustPanic (List Finding)
  | [] => .ok []
  | e :: es =>
      match analyze_file tbl e with
      | .error er => .error er
      | .ok fs =>
          match collectFindings tbl es with
          | .error er => .error er
          | .ok gs => .ok (fs ++ gs)

/-- Count of findings with a given severity (the filter/count
expressions of scanner.rs lines 121-136). -/
def countSev (s : Severity) (fs : List Finding) : Nat :=
  fs.countP fun f => decide (f.severity = s)

/-- The Summary construction of scanner.rs lines 119-137. -/
def mkSummary (fs : List Finding) : Summary :=
  { total := fs.length
  , critical := countSev .Critical fs
  , high := countSev .High fs
  , medium := countSev .Medium fs
  , low := countSev .Low fs }

/-- The post-enumeration part of scan_directory_with_progress
(scanner.rs lines 81-144), run on an already-enumerated entry list.
The inner Except String is the returned anyhow::Result; the outer
Except RustPanic distinguishes an unwinding panic from any returned
value. -/
def scanEntries (tbl : PkgTable) (rootPath : String) (entries : List Entry) :
    Except RustPanic (Except String ScanResults) :=
  match collectFindings tbl entries with
  | .error er => .error er
  | .ok findings =>
      .ok (.ok
        { findings := findings
        , summary := mkSummary findings
        , scanned_files := entries.length
        , scan_path := rootPath })

/-- A directory tree node: a file with its observable data, or a
directory with children. -/
inductive FSTree
  | file (name : String) (data : FileData)
  | dir (name : String) (children : List FSTree)

/-- Name of a tree node. -/
def FSTree.name : FSTree → String
  | .file n _ => n
  | .dir n _ => n

/-- should_scan_entry from scanner.rs lines 152-165. -/
def should_scan_entry (config : ScanConfig) (isDir : Bool) (name : String) : Bool :=
  if isDir then
    if !config.include_node_modules && name = "node_modules" then false
    else if SKIP_DIRS.contains name then false
    else true
  else true

/-- The WalkDir enumeration filtered by filter_entry(should_scan_entry)
and .filter(is_file), scanner.rs lines 74-79: pre-order walk emitting
the files of subtrees whose directories pass the policy. selfPath is
the display path of the node itself. -/
def walkAt (config : ScanConfig) (selfPath : String) : FSTree → List Entry
  | .file n d => [⟨selfPath, n, d⟩]
  | .dir n cs =>
      if should_scan_entry config true n then
        cs.attach.flatMap fun c => walkAt config (selfPath ++ "/" ++ c.1.name) c.1
      else []
termination_by t => sizeOf t
decreasing_by
  have := List.sizeOf_lt_of_mem c.2
  simp only [FSTree.dir.sizeOf_spec]
  omega

/-- The eager enumeration of scanner.rs lines 74-79. A root that does
not exist is modelled by none: walkdir then yields only an error item,
which .filter_map(e.ok) silently drops, so the entry list is empty. -/
def enumEntries (config : ScanConfig) (rootPath : String) : Option FSTree → List Entry
  | none => []
  | some t => walkAt config rootPath t

/-- scan_directory_with_progress from scanner.rs lines 68-145: the
eager enumeration followed by analysis and summary construction. The
body has no failure path: whenever it returns, it returns Ok. -/
def scan_directory_with_progress (tbl : PkgTable) (config : ScanConfig)
    (rootPath : String) (root : Option FSTree) :
    Except RustPanic (Except String ScanResults) :=
  scanEntries tbl rootPath (enumEntries config rootPath root)

/-- scan_directory_sync from scanner.rs lines 148-150: identical to
the progress variant with a no-op callback. -/
def scan_directory_sync (tbl : PkgTable) (config : ScanConfig)
    (rootPath : String) (root : Option FSTree) :
    Except RustPanic (Except String ScanResults) :=
  scan_directory_with_progress tbl config rootPath root

/-- Classification of a scan outcome as caller-visible failure (a
returned Err or an unwinding panic) versus a successful result. -/
def isErrorOutcome : Except RustPanic (Except String ScanResults) → Bool
  | .ok (.ok _) => false
  | _ => true

/-- Serialized JSON scalar values. -/
inductive JOut
  | str (s : String)
  | num (n : Nat)
deriving DecidableEq, Repr

/-- Serde's serialization of the Severity enum (patterns.rs line 149):
a derived Serialize on a unit variant emits the variant's identifier,
with no rename attribute present. -/
def severitySerName : Severity → String
  | .Critical => "Critical"
  | .High => "High"
  | .Medium => "Medium"
  | .Low => "Low"

/-- Serde's serialization of FindingType (scanner.rs line 55):
likewise the variant identifier. -/
def findingTypeSerName : FindingType → String
  | .MaliciousFile => "MaliciousFile"
  | .MaliciousHash => "MaliciousHash"
  | .SuspiciousPattern => "SuspiciousPattern"
  | .DangerousHook => "DangerousHook"
  | .CompromisedPackage => "CompromisedPackage"

/-- Serde's serialization of a Finding (scanner.rs lines 43-53) as the
ordered key/value list of the emitted JSON object: fields in
declaration order, line and context omitted entirely (no key) when
none, by their skip_serializing_if attributes. -/
def serializeFinding (f : Finding) : List (String × JOut) :=
  [ ("path", .str f.path)
  , ("finding_type", .str (findingTypeSerName f.finding_type))
  , ("severity", .str (severitySerName f.severity))
  , ("description", .str f.description) ] ++
  (match f.line with
   | some n => [("line", JOut.num n)]
   | none => []) ++
  (match f.context with
   | some c => [("context", JOut.str c)]
   | none => [])

/-- Events observable around the per-file closure of scanner.rs lines
86-96: the progress callback invocation with its three arguments, and
the completion of one file's analysis (the extend calls of lines
94-113 having run). -/
inductive Event
  | progress (cur total : Nat) (path : String)
  | analyzed (path : String)
deriving DecidableEq, Repr

/-- The event trace of the scan under the sequential schedule, with
the atomic counter value made explicit: for each file, in processing
order, the source first increments the counter and invokes on_progress
(lines 91-92) and only then runs the file's checks (lines 94-113). -/
def traceFrom (total cur : Nat) : List Entry → List Event
  | [] => []
  | e :: es => .progress (cur + 1) total e.path :: .analyzed e.path :: traceFrom total (cur + 1) es

/-- Full scan trace: total fixed up front by the eager enumeration
(scanner.rs line 81), counter starting at zero. -/
def scanTrace (es : List Entry) : List Event :=
  traceFrom es.length 0 es

/-- The progress data of an event, none for other events. -/
def progressOf : Event → Option (Nat × Nat × String)
  | .progress c t p => some (c, t, p)
  | _ => none

/-- Does every progress event for a path come after that path's
analysis completed? This is the order the claim asserts. -/
def progressAfterAnalysis (tr : List Event) : Bool :=
  tr.enum.all fun iev =>
    match iev.2 with
    | .progress _ _ p => (tr.take iev.1).contains (.analyzed p)
    | _ => true

/-- C4 counterexample: a 101-character ASCII line matching a rule
yields a context snippet of 103 characters (100 bytes plus the
three-character ellipsis), contradicting the claimed bound of at most
100 characters. -/
def c4Line : String := "SHA1HULUD" ++ String.mk (List.replicate 92 'a')

/-- The context the scanner actually produces for c4Line. -/
def c4Ctx : String := "SHA1HULUD" ++ String.mk (List.replicate 91 'a') ++ "..."

/-- A line whose 100th byte falls inside a multi-byte UTF-8 character:
9 ASCII bytes followed by 46 two-byte characters, 101 bytes in all,
with char boundaries at 9, 11, ..., 101 - so byte offset 100 is not a
boundary. -/
def c10Line : String := "SHA1HULUD" ++ String.mk (List.replicate 46 'é')

/-- The findings one file contributes when its analysis does not
panic. -/
def okFindings (tbl : PkgTable) (e : Entry) : List Finding :=
  match analyze_file tbl e with
  | .ok l => l
  | .error _ => []

/-- The identity of a finding as the claim keys it: path, kind,
severity, description and line. -/
def findingKey (f : Finding) : String × FindingType × Severity × String × Option Nat :=
  (f.path, f.finding_type, f.severity, f.description, f.line)

/-- Entry used by the c8 witness. -/
def c8EntA : Entry := ⟨"/r/a", "a", ⟨0, false, false, false, "", [], "", none⟩⟩

/-- Second entry used by the c8 witness. -/
def c8EntB : Entry := ⟨"/r/b", "b", ⟨0, false, false, false, "", [], "", none⟩⟩

/-- Entry used by the c9 theorems. -/
def c9Ent : Entry := ⟨"/r/f.js", "f.js", ⟨0, false, false, false, "", [], "", none⟩⟩

/-! ## Theorems -/

/-- The four severity counts partition the findings list. -/
theorem countSev_total (fs : List Finding) :
    countSev .Critical fs + countSev .High fs + countSev .Medium fs + countSev .Low fs =
      fs.length := by
  induction fs with
  | nil => simp [countSev]
  | cons f rest ih =>
      simp only [countSev, List.countP_cons, List.length_cons] at *
      cases h : f.severity <;> simp [h] <;> omega

/-- A successful scanEntries result carries the recomputed summary of
its own findings. -/
theorem scanEntries_ok_summary {tbl : PkgTable} {rootPath : String} {entries : List Entry}
    {r : ScanResults} (h : scanEntries tbl rootPath entries = .ok (.ok r)) :
    r.summary = mkSummary r.findings := by
  unfold scanEntries at h
  cases hc : collectFindings tbl entries with
  | error e => rw [hc] at h; cases h
  | ok fs =>
      rw [hc] at h
      simp only [Except.ok.injEq] at h
      rw [← h]

/-- C1: for every scan that returns a result, the Summary satisfies
total = length of the findings list, critical + high + medium + low =
total, and each severity count equals the number of findings carrying
that severity, all recomputed from the findings list itself. -/
theorem c1_summary_invariant (tbl : PkgTable) (config : ScanConfig) (rootPath : String)
    (root : Option FSTree) (r : ScanResults)
    (h : scan_directory_with_progress tbl config rootPath root = .ok (.ok r)) :
    r.summary.total = r.findings.length ∧
    r.summary.critical + r.summary.high + r.summary.medium + r.summary.low =
      r.summary.total ∧
    r.summary.critical = countSev .Critical r.findings ∧
    r.summary.high = countSev .High r.findings ∧
    r.summary.medium = countSev .Medium r.findings ∧
    r.summary.low = countSev .Low r.findings := by
  have hs : r.summary = mkSummary r.findings := scanEntries_ok_summary h
  rw [hs]
  refine ⟨rfl, ?_, rfl, rfl, rfl, rfl⟩
  exact countSev_total r.findings

/-- Witness for c1_summary_invariant at a concrete scan. -/
theorem c1_summary_invariant_witness :
    (scan_directory_with_progress [] ⟨false⟩ "/e" none =
      .ok (.ok ⟨[], ⟨0, 0, 0, 0, 0⟩, 0, "/e"⟩)) ∧
    ((⟨[], ⟨0, 0, 0, 0, 0⟩, 0, "/e"⟩ : ScanResults).summary.total =
      (⟨[], ⟨0, 0, 0, 0, 0⟩, 0, "/e"⟩ : ScanResults).findings.length ∧
     (⟨[], ⟨0, 0, 0, 0, 0⟩, 0, "/e"⟩ : ScanResults).summary.critical +
       (⟨[], ⟨0, 0, 0, 0, 0⟩, 0, "/e"⟩ : ScanResults).summary.high +
       (⟨[], ⟨0, 0, 0, 0, 0⟩, 0, "/e"⟩ : ScanResults).summary.medium +
       (⟨[], ⟨0, 0, 0, 0, 0⟩, 0, "/e"⟩ : ScanResults).summary.low =
       (⟨[], ⟨0, 0, 0, 0, 0⟩, 0, "/e"⟩ : ScanResults).summary.total ∧
     (⟨[], ⟨0, 0, 0, 0, 0⟩, 0, "/e"⟩ : ScanResults).summary.critical =
       countSev .Critical (⟨[], ⟨0, 0, 0, 0, 0⟩, 0, "/e"⟩ : ScanResults).findings ∧
     (⟨[], ⟨0, 0, 0, 0, 0⟩, 0, "/e"⟩ : ScanResults).summary.high =
       countSev .High (⟨[], ⟨0, 0, 0, 0, 0⟩, 0, "/e"⟩ : ScanResults).findings ∧
     (⟨[], ⟨0, 0, 0, 0, 0⟩, 0, "/e"⟩ : ScanResults).summary.medium =
       countSev .Medium (⟨[], ⟨0, 0, 0, 0, 0⟩, 0, "/e"⟩ : ScanResults).findings ∧
     (⟨[], ⟨0, 0, 0, 0, 0⟩, 0, "/e"⟩ : ScanResults).summary.low =
       countSev .Low (⟨[], ⟨0, 0, 0, 0, 0⟩, 0, "/e"⟩ : ScanResults).findings) :=
  ⟨rfl, c1_summary_invariant [] ⟨false⟩ "/e" none ⟨[], ⟨0, 0, 0, 0, 0⟩, 0, "/e"⟩ rfl⟩

/-- C2 counterexample: with a root path that does not exist (modelled
as none: walkdir yields only an error item, which filter_map drops),
the scan returns a successful empty result document, not an error. The
claim that a nonexistent root produces a caller-visible error is false
on this code: scan_directory_with_progress has no failure path at all
(scanner.rs lines 68-145 end in an unconditional Ok). -/
theorem c2_counterexample :
    isErrorOutcome (scan_directory_with_progress [] ⟨false⟩ "/nonexistent" none) = false ∧
    scan_directory_with_progress [] ⟨false⟩ "/nonexistent" none =
      .ok (.ok ⟨[], ⟨0, 0, 0, 0, 0⟩, 0, "/nonexistent"⟩) :=
  ⟨rfl, rfl⟩

/-- C2 amended: the engine never returns an error to the caller -
whenever scan (or scanWithProgress, which is the same function) returns
at all, the returned Result is Ok; in particular a nonexistent root
yields a successful result with zero files and zero findings. -/
theorem c2_no_error_amended (tbl : PkgTable) (config : ScanConfig) (rootPath : String)
    (root : Option FSTree) :
    ((∃ p, scan_directory_with_progress tbl config rootPath root = .error p) ∨
     (∃ r, scan_directory_with_progress tbl config rootPath root = .ok (.ok r))) ∧
    scan_directory_with_progress tbl config rootPath none =
      .ok (.ok ⟨[], ⟨0, 0, 0, 0, 0⟩, 0, rootPath⟩) := by
  constructor
  · unfold scan_directory_with_progress scanEntries
    cases hc : collectFindings tbl (enumEntries config rootPath root) with
    | error e => exact .inl ⟨e, rfl⟩
    | ok fs => exact .inr ⟨_, rfl⟩
  · rfl

/-- A package missing from the table is never version-compromised. -/
theorem is_version_compromised_of_not_pkg {tbl : PkgTable} {pkg ver : String}
    (h : is_package_compromised tbl pkg = none) :
    is_version_compromised tbl pkg ver = none := by
  unfold is_version_compromised
  unfold is_package_compromised at h
  rw [h]

/-- C3: for every dependency entry (package, versionSpec) of a
package.json section, checkDepEntry - which check_package_json runs on
every entry of each of the four sections via checkPackageDeps - emits
exactly one Critical CompromisedPackage finding when the
(package, version) pair is in the compromised table under exact string
equality, exactly one Medium CompromisedPackage finding when only the
package name is in the table, and nothing otherwise. -/
theorem c3_dep_entry_matching (tbl : PkgTable) (path pkg ver : String) :
    (∀ ivs, is_version_compromised tbl pkg ver = some ivs →
      checkDepEntry tbl path pkg (.str ver) =
        [⟨path, .CompromisedPackage, .Critical,
          s!"INFECTED package: {pkg} @ {ver} (Shai-Hulud 2.0)", none,
          some ("Infected versions: " ++ String.intercalate ", " ivs)⟩]) ∧
    (∀ ivs, is_version_compromised tbl pkg ver = none →
      is_package_compromised tbl pkg = some ivs →
      checkDepEntry tbl path pkg (.str ver) =
        [⟨path, .CompromisedPackage, .Medium,
          s!"Package {pkg} was targeted (your version {ver} may be safe)", none,
          some ("Infected versions: " ++ String.intercalate ", " ivs)⟩]) ∧
    (is_package_compromised tbl pkg = none →
      checkDepEntry tbl path pkg (.str ver) = []) := by
  refine ⟨?_, ?_, ?_⟩
  · intro ivs hv
    unfold checkDepEntry
    simp [asStr, hv]
  · intro ivs hv hp
    unfold checkDepEntry
    simp [asStr, hv, hp]
  · intro hp
    unfold checkDepEntry
    simp [asStr, is_version_compromised_of_not_pkg hp, hp]

/-- Witness for c3_dep_entry_matching: a table with left-pad infected
at 3.0.1, exercising all three cases. -/
theorem c3_dep_entry_matching_witness :
    (is_version_compromised [("left-pad", ["3.0.1"])] "left-pad" "3.0.1" = some ["3.0.1"]) ∧
    checkDepEntry [("left-pad", ["3.0.1"])] "/p/package.json" "left-pad" (.str "3.0.1") =
      [⟨"/p/package.json", .CompromisedPackage, .Critical,
        "INFECTED package: left-pad @ 3.0.1 (Shai-Hulud 2.0)", none,
        some "Infected versions: 3.0.1"⟩] ∧
    (is_version_compromised [("left-pad", ["3.0.1"])] "left-pad" "9.9.9" = none) ∧
    (is_package_compromised [("left-pad", ["3.0.1"])] "left-pad" = some ["3.0.1"]) ∧
    checkDepEntry [("left-pad", ["3.0.1"])] "/p/package.json" "left-pad" (.str "9.9.9") =
      [⟨"/p/package.json", .CompromisedPackage, .Medium,
        "Package left-pad was targeted (your version 9.9.9 may be safe)", none,
        some "Infected versions: 3.0.1"⟩] ∧
    (is_package_compromised [("left-pad", ["3.0.1"])] "lodash" = none) ∧
    checkDepEntry [("left-pad", ["3.0.1"])] "/p/package.json" "lodash" (.str "3.0.1") = [] :=
  ⟨rfl,
   (c3_dep_entry_matching [("left-pad", ["3.0.1"])] "/p/package.json" "left-pad" "3.0.1").1
     ["3.0.1"] rfl,
   rfl, rfl,
   (c3_dep_entry_matching [("left-pad", ["3.0.1"])] "/p/package.json" "left-pad" "9.9.9").2.1
     ["3.0.1"] rfl rfl,
   rfl,
   (c3_dep_entry_matching [("left-pad", ["3.0.1"])] "/p/package.json" "lodash" "3.0.1").2.2
     rfl⟩

/-- Stripping the node_modules/ path prefix from a prefixed key
recovers the package name. -/
theorem stripNodeModules_append (name : String) :
    stripNodeModules ("node_modules/" ++ name) = some name := by
  unfold stripNodeModules
  simp [ List.isPrefixOf_iff_prefix, String.data_append, List.prefix_append,
    List.drop_left]

/-- C6: for every entry of a package-lock.json npm v7+ packages map,
checkLockPkgEntry - which check_lockfile runs on every entry of the
packages map - strips the node_modules/ prefix from the key, reads the
version field, and emits exactly one Critical CompromisedPackage
finding when the resolved (package, version) pair exactly matches the
compromised table; a package that is in the table but whose resolved
version does not match produces no finding at all (no Medium signal
for lockfiles). -/
theorem c6_lockfile_packages_matching (tbl : PkgTable) (path name ver : String) :
    (∀ ivs, is_version_compromised tbl name ver = some ivs →
      checkLockPkgEntry tbl path ("node_modules/" ++ name) (.obj [("version", .str ver)]) =
        [⟨path, .CompromisedPackage, .Critical,
          s!"INFECTED in lockfile: {name} @ {ver}", none,
          some ("Infected versions: " ++ String.intercalate ", " ivs)⟩]) ∧
    (∀ ivs, is_package_compromised tbl name = some ivs →
      is_version_compromised tbl name ver = none →
      checkLockPkgEntry tbl path ("node_modules/" ++ name) (.obj [("version", .str ver)]) =
        []) := by
  constructor
  · intro ivs hv
    unfold checkLockPkgEntry
    rw [stripNodeModules_append]
    simp [jGet, jLookup, asStr, hv]
  · intro ivs _ hv
    unfold checkLockPkgEntry
    rw [stripNodeModules_append]
    simp [jGet, jLookup, asStr, hv]

/-- Witness for c6_lockfile_packages_matching: left-pad resolved at
the infected 3.0.1 fires, resolved at 9.9.9 stays silent. -/
theorem c6_lockfile_packages_matching_witness :
    (is_version_compromised [("left-pad", ["3.0.1"])] "left-pad" "3.0.1" = some ["3.0.1"]) ∧
    checkLockPkgEntry [("left-pad", ["3.0.1"])] "/p/package-lock.json"
        ("node_modules/" ++ "left-pad") (.obj [("version", .str "3.0.1")]) =
      [⟨"/p/package-lock.json", .CompromisedPackage, .Critical,
        "INFECTED in lockfile: left-pad @ 3.0.1", none,
        some "Infected versions: 3.0.1"⟩] ∧
    (is_package_compromised [("left-pad", ["3.0.1"])] "left-pad" = some ["3.0.1"]) ∧
    (is_version_compromised [("left-pad", ["3.0.1"])] "left-pad" "9.9.9" = none) ∧
    checkLockPkgEntry [("left-pad", ["3.0.1"])] "/p/package-lock.json"
        ("node_modules/" ++ "left-pad") (.obj [("version", .str "9.9.9")]) = [] :=
  ⟨rfl,
   (c6_lockfile_packages_matching [("left-pad", ["3.0.1"])] "/p/package-lock.json"
     "left-pad" "3.0.1").1 ["3.0.1"] rfl,
   rfl, rfl,
   (c6_lockfile_packages_matching [("left-pad", ["3.0.1"])] "/p/package-lock.json"
     "left-pad" "9.9.9").2 ["3.0.1"] rfl rfl⟩

/-- C5 counterexample: serde serializes the Severity of a finding as
the capitalized variant identifier "Critical" (the derive has no
rename attribute), not as the canonical uppercase name "CRITICAL"
claimed by the spec; the uppercase names exist only in
Severity::as_str, which serialization does not use. -/
theorem c5_counterexample :
    (serializeFinding ⟨"/x", .SuspiciousPattern, .Critical, "d", none, none⟩).lookup
      "severity" = some (.str "Critical") ∧
    ("Critical" == "CRITICAL") = false ∧
    Severity.as_str .Critical = "CRITICAL" :=
  ⟨rfl, rfl, rfl⟩

/-- C5 amended: a serialized Finding renders its severity as the
capitalized variant name (Critical/High/Medium/Low), whose uppercasing
is exactly Severity::as_str; the line and context keys are present in
the serialized object exactly when the fields are present (no null is
ever emitted for them). -/
theorem c5_serialization_amended (f : Finding) :
    ((serializeFinding f).map Prod.fst).contains "line" = f.line.isSome ∧
    ((serializeFinding f).map Prod.fst).contains "context" = f.context.isSome ∧
    (serializeFinding f).lookup "severity" = some (.str (severitySerName f.severity)) ∧
    (severitySerName f.severity).data.map Char.toUpper = (Severity.as_str f.severity).data := by
  obtain ⟨p, ft, sv, d, l, c⟩ := f
  refine ⟨?_, ?_, ?_, ?_⟩
  · cases l <;> cases c <;> simp [serializeFinding]
  · cases l <;> cases c <;> simp [serializeFinding]
  · cases l <;> cases c <;> rfl
  · dsimp only
    cases sv <;> decide

/-- C7 counterexample: the size gate of scanner.rs lines 221-225 sits
inside an if-let on file.metadata(); when the metadata call fails, the
gate is skipped, so a 2,000,000-byte file whose metadata read fails is
scanned anyway and its matching line produces a finding - refuting the
claim that every file larger than 1,000,000 bytes yields zero
content-pattern findings. -/
theorem c7_counterexample :
    (1000000 < 2000000) ∧
    check_file_content "/big.js" "js" true false 2000000 ["SHA1HULUD"] =
      .ok [⟨"/big.js", .SuspiciousPattern, .Critical, "Shai-Hulud runner identifier",
        some 1, some "SHA1HULUD"⟩] :=
  ⟨by decide, rfl⟩

/-- C7 amended: a file whose byte size exceeds 1,000,000 yields no
content-pattern findings provided its metadata read succeeds - when
the metadata call fails the size gate is skipped and the file is
scanned identically regardless of its size; and a file whose extension
is outside the scannable allow-list is never content-scanned at all,
unconditionally (the check returns before opening the file). -/
theorem c7_gates_amended (path ext : String) (openOk metaOk : Bool) (size : Nat)
    (lines : List String) :
    (metaOk = true → 1000000 < size →
      check_file_content path ext openOk metaOk size lines = .ok []) ∧
    (SCANNABLE_EXTENSIONS.contains ext = false →
      check_file_content path ext openOk metaOk size lines = .ok []) ∧
    (metaOk = false →
      check_file_content path ext openOk metaOk size lines =
        check_file_content path ext openOk metaOk 0 lines) := by
  refine ⟨?_, ?_, ?_⟩
  · intro hm h
    subst hm
    unfold check_file_content
    by_cases hx : SCANNABLE_EXTENSIONS.contains ext <;> cases openOk <;> simp [hx, h]
  · intro h
    unfold check_file_content
    simp only [h]
    rfl
  · intro hm
    subst hm
    rfl

/-- Witness for c7_gates_amended: a 2 MB file with a successful
metadata read yields nothing, a .exe file full of markers yields
nothing, and with a failed metadata read the scan ignores the size. -/
theorem c7_gates_amended_witness :
    (true = true) ∧ (1000000 < 2000000) ∧
    check_file_content "/big.js" "js" true true 2000000 ["SHA1HULUD"] = .ok [] ∧
    (SCANNABLE_EXTENSIONS.contains "exe" = false) ∧
    check_file_content "/x.exe" "exe" true true 10 ["SHA1HULUD"] = .ok [] ∧
    (false = false) ∧
    check_file_content "/m.js" "js" true false 2000000 ["hello"] =
      check_file_content "/m.js" "js" true false 0 ["hello"] :=
  ⟨rfl, by decide,
   (c7_gates_amended "/big.js" "js" true true 2000000 ["SHA1HULUD"]).1 rfl (by decide),
   by decide,
   (c7_gates_amended "/x.exe" "exe" true true 10 ["SHA1HULUD"]).2.1 (by decide),
   rfl,
   (c7_gates_amended "/m.js" "js" true false 2000000 ["hello"]).2.2 rfl⟩

/-- A string's char count never exceeds its UTF-8 byte count. -/
theorem length_le_byteLen (s : List Char) : s.length ≤ byteLen s := by
  induction s with
  | nil => simp [byteLen]
  | cons c cs ih =>
      have hp := Char.utf8Size_pos c
      simp only [byteLen, List.map_cons, List.sum_cons, List.length_cons] at *
      omega

/-- A byte-bounded prefix holds at most that many characters. -/
theorem byteTake_length_le (s : List Char) : ∀ (n : Nat) (p : List Char),
    byteTake s n = some p → p.length ≤ n := by
  induction s with
  | nil =>
      intro n p h
      cases n with
      | zero => simp [byteTake] at h; simp [← h]
      | succ m => simp [byteTake] at h
  | cons c cs ih =>
      intro n p h
      cases n with
      | zero => simp [byteTake] at h; simp [← h]
      | succ m =>
          unfold byteTake at h
          split at h
          · rename_i hsz
            cases hbt : byteTake cs (m + 1 - c.utf8Size) with
            | none => rw [hbt] at h; simp at h
            | some r =>
                rw [hbt] at h
                simp only [Option.map] at h
                have hr := ih (m + 1 - c.utf8Size) r hbt
                have hp := Char.utf8Size_pos c
                simp only [Option.some.injEq] at h
                subst h
                simp only [List.length_cons]
                omega
          · cases h

/-- Behaviour of truncate_string when it returns: identity on strings
of at most max_len bytes, otherwise the byte-bounded prefix plus an
ellipsis, in total at most 103 characters for max_len = 100. -/
theorem truncate_string_spec (s t : List Char) (h : truncate_string s 100 = .ok t) :
    (byteLen s ≤ 100 → t = s) ∧ t.length ≤ 103 ∧
    (100 < byteLen s → ∃ p, byteTake s 100 = some p ∧ t = p ++ "...".toList) := by
  unfold truncate_string at h
  by_cases hb : byteLen s ≤ 100
  · rw [if_pos hb] at h
    simp only [Except.ok.injEq] at h
    subst h
    exact ⟨fun _ => rfl, le_trans (length_le_byteLen s) (by omega),
      fun hc => absurd hc (by omega)⟩
  · rw [if_neg hb] at h
    cases hbt : byteTake s 100 with
    | none => rw [hbt] at h; cases h
    | some p =>
        rw [hbt] at h
        simp only [Except.ok.injEq] at h
        subst h
        have hple := byteTake_length_le s 100 p hbt
        refine ⟨fun hle => absurd hle hb, ?_, fun _ => ⟨p, rfl, rfl⟩⟩
        simp only [List.length_append]
        have : ("...".toList).length = 3 := rfl
        omega

/-- Every finding emitted for one line carries as context the
truncation of that line's trimmed text. -/
theorem lineFindings_mem_context {path : String} {n : Nat} {l : String} {gs : List Finding}
    {f : Finding} (h : lineFindings path n l = .ok gs) (hf : f ∈ gs) :
    ∃ c, truncate_string (rustTrim l.toList) 100 = .ok c ∧
      f.context = some (String.mk c) := by
  simp only [lineFindings] at h
  split at h
  · simp only [Except.ok.injEq] at h
    subst h
    cases hf
  · split at h
    · rename_i c hc
      simp only [Except.ok.injEq] at h
      subst h
      obtain ⟨r, _, rfl⟩ := List.mem_map.mp hf
      exact ⟨c, hc, rfl⟩
    · cases h

/-- Every finding of the line loop comes from some line via
lineFindings. -/
theorem scanLines_mem {path : String} : ∀ (lines : List String) (k : Nat)
    (fs : List Finding) (f : Finding),
    scanLines path k lines = .ok fs → f ∈ fs →
    ∃ l ∈ lines, ∃ n gs, lineFindings path n l = .ok gs ∧ f ∈ gs := by
  intro lines
  induction lines with
  | nil =>
      intro k fs f h hf
      simp only [scanLines, Except.ok.injEq] at h
      subst h
      cases hf
  | cons l rest ih =>
      intro k fs f h hf
      unfold scanLines at h
      cases h1 : lineFindings path k l with
      | error e => rw [h1] at h; cases h
      | ok gs1 =>
          rw [h1] at h
          cases h2 : scanLines path (k + 1) rest with
          | error e => rw [h2] at h; cases h
          | ok gs2 =>
              rw [h2] at h
              simp only [Except.ok.injEq] at h
              subst h
              rcases List.mem_append.mp hf with hl | hr
              · exact ⟨l, List.mem_cons_self l rest, k, gs1, h1, hl⟩
              · obtain ⟨l', hl', n, gs, hg, hfg⟩ := ih (k + 1) gs2 f h2 hr
                exact ⟨l', List.mem_cons_of_mem l hl', n, gs, hg, hfg⟩

set_option maxRecDepth 4000 in
/-- C4 counterexample: the finding for c4Line carries a context
snippet of 103 characters, refuting the claim's universal 100
character bound. -/
theorem c4_counterexample :
    check_file_content "/x/a.js" "js" true true 10 [c4Line] =
      .ok [⟨"/x/a.js", .SuspiciousPattern, .Critical, "Shai-Hulud runner identifier",
        some 1, some c4Ctx⟩] ∧
    c4Ctx.length = 103 := ⟨rfl, rfl⟩

/-- C4 amended: every content-pattern finding's context snippet is the
matching line trimmed of surrounding whitespace whenever that trimmed
line is at most 100 bytes long; otherwise it is the first 100 bytes of
the trimmed line followed by an ellipsis; in all cases the snippet is
at most 103 characters. -/
theorem c4_context_amended (path ext : String) (openOk metaOk : Bool) (size : Nat)
    (lines : List String) (fs : List Finding) (f : Finding)
    (hok : check_file_content path ext openOk metaOk size lines = .ok fs) (hf : f ∈ fs) :
    ∃ l ∈ lines, ∃ c, truncate_string (rustTrim l.toList) 100 = .ok c ∧
      f.context = some (String.mk c) ∧
      (byteLen (rustTrim l.toList) ≤ 100 → c = rustTrim l.toList) ∧
      c.length ≤ 103 ∧
      (100 < byteLen (rustTrim l.toList) →
        ∃ p, byteTake (rustTrim l.toList) 100 = some p ∧ c = p ++ "...".toList) := by
  have main : scanLines path 0 lines = .ok fs →
      ∃ l ∈ lines, ∃ c, truncate_string (rustTrim l.toList) 100 = .ok c ∧
        f.context = some (String.mk c) ∧
        (byteLen (rustTrim l.toList) ≤ 100 → c = rustTrim l.toList) ∧
        c.length ≤ 103 ∧
        (100 < byteLen (rustTrim l.toList) →
          ∃ p, byteTake (rustTrim l.toList) 100 = some p ∧ c = p ++ "...".toList) := by
    intro hsc
    obtain ⟨l, hl, n, gs, hg, hfg⟩ := scanLines_mem lines 0 fs f hsc hf
    obtain ⟨c, hc, hctx⟩ := lineFindings_mem_context hg hfg
    obtain ⟨h1, h2, h3⟩ := truncate_string_spec _ _ hc
    exact ⟨l, hl, c, hc, hctx, h1, h2, h3⟩
  simp only [check_file_content] at hok
  split at hok
  · split at hok
    · split at hok
      · split at hok
        · simp only [Except.ok.injEq] at hok; subst hok; cases hf
        · exact main hok
      · exact main hok
    · simp only [Except.ok.injEq] at hok; subst hok; cases hf
  · simp only [Except.ok.injEq] at hok; subst hok; cases hf

/-- Witness for c4_context_amended at a short line surrounded by
whitespace: the context is the trimmed line itself. -/
theorem c4_context_amended_witness :
    (check_file_content "/w.js" "js" true true 10 ["  SHA1HULUD  "] =
      .ok [⟨"/w.js", .SuspiciousPattern, .Critical, "Shai-Hulud runner identifier",
        some 1, some "SHA1HULUD"⟩]) ∧
    (∃ l ∈ ["  SHA1HULUD  "], ∃ c, truncate_string (rustTrim l.toList) 100 = .ok c ∧
      (⟨"/w.js", .SuspiciousPattern, .Critical, "Shai-Hulud runner identifier",
        some 1, some "SHA1HULUD"⟩ : Finding).context = some (String.mk c) ∧
      (byteLen (rustTrim l.toList) ≤ 100 → c = rustTrim l.toList) ∧
      c.length ≤ 103 ∧
      (100 < byteLen (rustTrim l.toList) →
        ∃ p, byteTake (rustTrim l.toList) 100 = some p ∧ c = p ++ "...".toList)) :=
  ⟨rfl, c4_context_amended "/w.js" "js" true true 10 ["  SHA1HULUD  "] _ _ rfl
    (List.Mem.head _)⟩

set_option maxRecDepth 4000 in
/-- C10: truncate_string slices at byte index 100 without checking a
character boundary, so on a matching line whose 100th byte falls
inside a multi-byte UTF-8 character the content-pattern check panics
instead of returning findings. -/
theorem c10_truncation_panics :
    truncate_string (rustTrim c10Line.toList) 100 = .error .panicked ∧
    check_file_content "/x/evil.js" "js" true true 200 [c10Line] = .error .panicked :=
  ⟨rfl, rfl⟩

/-- A non-panicking aggregation is the concatenation of the per-file
findings in processing order. -/
theorem collectFindings_ok_flatMap {tbl : PkgTable} : ∀ {es : List Entry} {fs : List Finding},
    collectFindings tbl es = .ok fs → fs = es.flatMap (okFindings tbl) := by
  intro es
  induction es with
  | nil =>
      intro fs h
      simp only [collectFindings, Except.ok.injEq] at h
      subst h
      rfl
  | cons e rest ih =>
      intro fs h
      unfold collectFindings at h
      cases ha : analyze_file tbl e with
      | error er => rw [ha] at h; cases h
      | ok l =>
          rw [ha] at h
          cases hc : collectFindings tbl rest with
          | error er => rw [hc] at h; cases h
          | ok gs =>
              rw [hc] at h
              simp only [Except.ok.injEq] at h
              subst h
              simp [List.flatMap_cons, okFindings, ha, ih hc]

/-- A successful scanEntries result's findings are the aggregation's
output. -/
theorem scanEntries_ok_findings {tbl : PkgTable} {rootPath : String} {es : List Entry}
    {r : ScanResults} (h : scanEntries tbl rootPath es = .ok (.ok r)) :
    collectFindings tbl es = .ok r.findings := by
  unfold scanEntries at h
  cases hc : collectFindings tbl es with
  | error e => rw [hc] at h; cases h
  | ok fs =>
      rw [hc] at h
      simp only [Except.ok.injEq] at h
      rw [← h]

/-- C8: two scans of the same unchanged entry set with the same
configuration and table - the processing orders being any two
permutations of each other, as under the parallel fan-out - produce
the same multiset of findings keyed on path, kind, severity,
description and line. -/
theorem c8_rescan_multiset (tbl : PkgTable) (rootPath : String) (e1 e2 : List Entry)
    (r1 r2 : ScanResults) (hp : e1.Perm e2)
    (h1 : scanEntries tbl rootPath e1 = .ok (.ok r1))
    (h2 : scanEntries tbl rootPath e2 = .ok (.ok r2)) :
    (↑(r1.findings.map findingKey) :
        Multiset (String × FindingType × Severity × String × Option Nat)) =
      ↑(r2.findings.map findingKey) := by
  have hf1 := collectFindings_ok_flatMap (scanEntries_ok_findings h1)
  have hf2 := collectFindings_ok_flatMap (scanEntries_ok_findings h2)
  rw [Multiset.coe_eq_coe, hf1, hf2]
  exact (hp.flatMap_right (okFindings tbl)).map findingKey

/-- Witness for c8_rescan_multiset: the same two files processed in
the two opposite orders. -/
theorem c8_rescan_multiset_witness :
    (([c8EntA, c8EntB] : List Entry).Perm [c8EntB, c8EntA]) ∧
    (scanEntries [] "/r" [c8EntA, c8EntB] = .ok (.ok ⟨[], ⟨0, 0, 0, 0, 0⟩, 2, "/r"⟩)) ∧
    (scanEntries [] "/r" [c8EntB, c8EntA] = .ok (.ok ⟨[], ⟨0, 0, 0, 0, 0⟩, 2, "/r"⟩)) ∧
    (↑((⟨[], ⟨0, 0, 0, 0, 0⟩, 2, "/r"⟩ : ScanResults).findings.map findingKey) :
        Multiset (String × FindingType × Severity × String × Option Nat)) =
      ↑((⟨[], ⟨0, 0, 0, 0, 0⟩, 2, "/r"⟩ : ScanResults).findings.map findingKey) :=
  ⟨List.Perm.swap c8EntB c8EntA [], rfl, rfl,
   c8_rescan_multiset [] "/r" [c8EntA, c8EntB] [c8EntB, c8EntA] _ _
     (List.Perm.swap c8EntB c8EntA []) rfl rfl⟩

/-- Counter values of the progress events of a trace segment. -/
theorem traceFrom_cur : ∀ (es : List Entry) (t c : Nat),
    ((traceFrom t c es).filterMap progressOf).map (fun x => x.1) =
      List.range' (c + 1) es.length := by
  intro es
  induction es with
  | nil => intro t c; rfl
  | cons e rest ih =>
      intro t c
      simp [traceFrom, progressOf, List.range'_succ, ih t (c + 1)]

/-- Every progress event of a trace segment reports the fixed total. -/
theorem traceFrom_total_fixed : ∀ (es : List Entry) (t c : Nat) x,
    x ∈ (traceFrom t c es).filterMap progressOf → x.2.1 = t := by
  intro es
  induction es with
  | nil => intro t c x h; cases h
  | cons e rest ih =>
      intro t c x h
      simp only [traceFrom, List.filterMap_cons, progressOf, List.mem_cons] at h
      rcases h with rfl | h
      · rfl
      · exact ih t (c + 1) x h

/-- The progress events of a trace segment name the enumerated files
in order, one each. -/
theorem traceFrom_paths : ∀ (es : List Entry) (t c : Nat),
    ((traceFrom t c es).filterMap progressOf).map (fun x => x.2.2) = es.map Entry.path := by
  intro es
  induction es with
  | nil => intro t c; rfl
  | cons e rest ih =>
      intro t c
      simp [traceFrom, progressOf, ih t (c + 1)]

/-- Positions of the i-th file's progress and analysis events: the
progress call sits immediately before that file's analysis. -/
theorem traceFrom_get : ∀ (es : List Entry) (t c i : Nat) (e : Entry), es[i]? = some e →
    (traceFrom t c es)[2 * i]? = some (.progress (c + i + 1) t e.path) ∧
    (traceFrom t c es)[2 * i + 1]? = some (.analyzed e.path) := by
  intro es
  induction es with
  | nil => intro t c i e h; simp at h
  | cons e0 rest ih =>
      intro t c i e h
      cases i with
      | zero =>
          simp only [List.getElem?_cons_zero, Option.some.injEq] at h
          subst h
          constructor <;> simp [traceFrom]
      | succ j =>
          simp only [List.getElem?_cons_succ] at h
          have hj := ih t (c + 1) j e h
          have e2 : 2 * (j + 1) = 2 * j + 1 + 1 := by ring
          have e3 : c + 1 + j + 1 = c + (j + 1) + 1 := by ring
          constructor
          · rw [e2]
            simp only [traceFrom, List.getElem?_cons_succ]
            rw [← e3]
            exact hj.1
          · rw [e2]
            simp only [traceFrom, List.getElem?_cons_succ]
            exact hj.2

/-- C9 counterexample: in the scan trace of a single file, the
progress callback invocation for that file comes first, before the
file's analysis completes - the source increments the counter and
invokes on_progress (scanner.rs 91-92) before running any check
(lines 94-113) - refuting the claim that the callback is invoked once
the file's analysis has completed. -/
theorem c9_counterexample :
    scanTrace [c9Ent] = [.progress 1 1 "/r/f.js", .analyzed "/r/f.js"] ∧
    progressAfterAnalysis (scanTrace [c9Ent]) = false :=
  ⟨rfl, rfl⟩

/-- C9 amended: during scanWithProgress the callback is invoked
exactly once per enumerated file, at the start of that file's analysis
(immediately before its checks run, not after they complete), with
arguments (filesStartedSoFar, totalFiles, pathBeingProcessed) where
totalFiles is the fixed count from the eager enumeration and the
counter values over the whole scan are exactly 1 through totalFiles. -/
theorem c9_progress_amended (es : List Entry) :
    ((scanTrace es).filterMap progressOf).map (fun x => x.1) = List.range' 1 es.length ∧
    (∀ x ∈ (scanTrace es).filterMap progressOf, x.2.1 = es.length) ∧
    ((scanTrace es).filterMap progressOf).map (fun x => x.2.2) = es.map Entry.path ∧
    (∀ i e, es[i]? = some e →
      (scanTrace es)[2 * i]? = some (.progress (i + 1) es.length e.path) ∧
      (scanTrace es)[2 * i + 1]? = some (.analyzed e.path)) := by
  refine ⟨traceFrom_cur es es.length 0, fun x hx => traceFrom_total_fixed es es.length 0 x hx,
    traceFrom_paths es es.length 0, fun i e h => ?_⟩
  have := traceFrom_get es es.length 0 i e h
  rwa [Nat.zero_add] at this

/-- Witness for c9_progress_amended at a one-file scan. -/
theorem c9_progress_amended_witness :
    (([c9Ent] : List Entry)[0]? = some c9Ent) ∧
    ((scanTrace [c9Ent])[2 * 0]? = some (.progress (0 + 1) 1 "/r/f.js") ∧
     (scanTrace [c9Ent])[2 * 0 + 1]? = some (.analyzed "/r/f.js")) :=
  ⟨rfl, (c9_progress_amended [c9Ent]).2.2.2 0 c9Ent rfl⟩

end ShaiHulud
